import Mathlib

/-
Verification of the quantization-recipes notebooks.

Shallow embedding of the code authored in
`01_large_language_model_optimization.ipynb` and
`02_vision_transformer_edge_optimization.ipynb`.  Tensors indexed by
batch and sequence position are lists of lists; the effect of framework
primitives on the opaque model object is passed in as function
parameters; Python exceptions are `Except`; Python float arithmetic on
loss values is modelled over `ℚ`.
-/

namespace QuantRecipes

/-! ## Notebook 01, section 6: quantized key-value caching -/

/-- A batch-by-sequence tensor: dimension 0 is the batch, dimension 1 the
sequence, and each entry of type `V` stands for one hidden-state vector
along the feature dimension. -/
abbrev Tensor3 (V : Type) : Type := List (List V)

/-- The three dynamically quantized linear projections held by
`QuantizedAttention` (notebook 01, section 5).  An `nn.Linear` acts along
the feature dimension only, hence each projection is a function on
per-position vectors. -/
structure QuantAttn (V W : Type) where
  query : V → W
  key : V → W
  value : V → W

/-- Pointwise application of a projection over batch and sequence
positions, as a linear layer applies to a 3-d input tensor. -/
def applyProj {V W : Type} (f : V → W) (t : Tensor3 V) : Tensor3 W :=
  t.map (List.map f)

/-- Python slicing `hidden_states[:, -1:, :]`: keep only the final
sequence position of every batch row (an empty row stays empty, exactly
as a `-1:` slice of an empty range). -/
def lastSlice {V : Type} (t : Tensor3 V) : Tensor3 V :=
  t.map (fun row => row.drop (row.length - 1))

/-- Concatenation along dimension 1, the effect of
`torch.cat ... dim 1` on two tensors of equal batch size. -/
def catDim1 {V : Type} (a b : Tensor3 V) : Tensor3 V :=
  List.zipWith (fun x y => x ++ y) a b

/-- The mutable state of `CachedQuantizedAttention`: the two cache
attributes, each initially `None`. -/
structure CachedState (W : Type) where
  cached_key : Option (Tensor3 W)
  cached_value : Option (Tensor3 W)

/-- State installed by `CachedQuantizedAttention.__init__`. -/
def CachedState.init {W : Type} : CachedState W :=
  { cached_key := none, cached_value := none }

/-- `CachedQuantizedAttention.forward` (notebook 01, section 6).  The
method mutates `self.cached_key` and `self.cached_value`; here the state
is passed and returned explicitly.  The branch with a populated key cache
but empty value cache is unreachable from `init`; on it the source would
raise a `TypeError` out of `torch.cat`, rendered as `none`. -/
def CachedQuantizedAttention.forward {V W : Type} (attn : QuantAttn V W)
    (s : CachedState W) (hidden_states : Tensor3 V) :
    Option ((Tensor3 W × Tensor3 W × Tensor3 W) × CachedState W) :=
  let query_layer := applyProj attn.query hidden_states
  match s.cached_key with
  | none =>
    let key_layer := applyProj attn.key hidden_states
    let value_layer := applyProj attn.value hidden_states
    some ((query_layer, key_layer, value_layer),
      { cached_key := some key_layer, cached_value := some value_layer })
  | some ck =>
    match s.cached_value with
    | none => none
    | some cv =>
      let last_hidden_state := lastSlice hidden_states
      let key_layer := applyProj attn.key last_hidden_state
      let value_layer := applyProj attn.value last_hidden_state
      let ck2 := catDim1 ck key_layer
      let cv2 := catDim1 cv value_layer
      some ((query_layer, ck2, cv2),
        { cached_key := some ck2, cached_value := some cv2 })

/-! ## Notebook 01, section 4: post-training quantization -/

/-- Numeric precision of a module kept outside the INT8 path. -/
inductive Precision where
  | fp32
  | fp16
deriving DecidableEq, Repr

/-- The state of the GPT-2 model object visible to `apply_ptq`: the
parameter blob `params` (opaque, of type `P`), the quantization
configuration attribute, the observer statistics collected while
calibrating (one record of type `B` per calibration batch), whether
`convert` has run, and the precision of the embedding layers and of the
output head. -/
structure GPT2State (P B : Type) where
  params : P
  hasQconfig : Bool
  observed : List B
  converted : Bool
  wte : Precision
  wpe : Precision
  lm_head : Precision

/-- One externally visible step taken by `apply_ptq`. -/
inductive PtqStep (B : Type) where
  | setQconfig
  | prepareModel
  | calibForward (batch : B) (gradEnabled : Bool)
  | convertModel
  | halfWte
  | halfWpe
  | halfLmHead
deriving DecidableEq

/-- The calibration loop of `apply_ptq`: one forward pass of the prepared
model per batch, under `torch.no_grad`.  Modelled from the framework's
documented semantics of a prepared model: a forward pass updates the
inserted observers' statistics and nothing else; under `no_grad` no
gradient is recorded, so parameters cannot change.  Returns the updated
model together with the trace of steps taken. -/
def calibrate {P B : Type} (m : GPT2State P B) :
    List B → GPT2State P B × List (PtqStep B)
  | [] => (m, [])
  | b :: dl =>
    let next := calibrate { m with observed := m.observed ++ [b] } dl
    (next.1, PtqStep.calibForward b false :: next.2)

/-- `apply_ptq` (notebook 01, section 4).  `model.qconfig := ...` mutates
the argument; `torch.quantization.prepare` copies the model and attaches
observers; after `convert`, the three `Module.half()` calls convert the
original model's submodules in place and return them, so the assignments
make both the original model and `model_quantized` FP16 there.  Returns
the pair (original model after the call, quantized model) together with
the executed step trace. -/
def apply_ptq {P B : Type} (model : GPT2State P B) (train_dataloader : List B) :
    (GPT2State P B × GPT2State P B) × List (PtqStep B) :=
  let model1 := { model with hasQconfig := true }
  let model_prepared0 := { model1 with observed := [] }
  let cal := calibrate model_prepared0 train_dataloader
  let model_prepared := cal.1
  let model_quantized0 := { model_prepared with converted := true }
  let model2 := { model1 with
    wte := Precision.fp16, wpe := Precision.fp16, lm_head := Precision.fp16 }
  let model_quantized := { model_quantized0 with
    wte := Precision.fp16, wpe := Precision.fp16, lm_head := Precision.fp16 }
  ((model2, model_quantized),
    [PtqStep.setQconfig, PtqStep.prepareModel] ++ cal.2 ++
      [PtqStep.convertModel, PtqStep.halfWte, PtqStep.halfWpe, PtqStep.halfLmHead])

/-! ## Notebook 02, section 6: attention-head pruning and broadcasting -/

/-- Align two shapes from the trailing dimension as torch broadcasting
does, working on reversed dimension lists: missing dimensions are
borrowed from the other shape, equal dimensions kept, and a dimension of
size one expands to the other side's size. -/
def bcastRev : List Nat → List Nat → Option (List Nat)
  | [], ys => some ys
  | x :: xs, [] => some (x :: xs)
  | x :: xs, y :: ys =>
    match bcastRev xs ys with
    | none => none
    | some rest =>
      if x = y then some (x :: rest)
      else if x = 1 then some (y :: rest)
      else if y = 1 then some (x :: rest)
      else none

/-- Broadcast shape of two tensors, `none` when they are incompatible. -/
def broadcastShape (a b : List Nat) : Option (List Nat) :=
  (bcastRev a.reverse b.reverse).map List.reverse

/-- An in-place tensor operation `a *= b` is accepted exactly when
broadcasting `b` against `a` leaves the shape of `a` unchanged; otherwise
torch raises a RuntimeError. -/
def inplaceMulOk (target other : List Nat) : Bool :=
  broadcastShape target other == some target

/-- Shape of `module.qkv.weight` in a timm Attention module with `H`
heads of head dimension `D`: a Linear with `3 * (H * D)` output features
over `H * D` input features. -/
def qkvWeightShape (H D : Nat) : List Nat := [3 * (H * D), H * D]

/-- Shape of the pruning mask built by `prune_attention_heads`:
`torch.ones(num_heads).repeat(3).unsqueeze(1).unsqueeze(1)`. -/
def pruneMaskShape (H : Nat) : List Nat := [3 * H, 1, 1]

/-- Shape of `module.qkv.bias`. -/
def qkvBiasShape (H D : Nat) : List Nat := [3 * (H * D)]

/-- Shape of `mask.squeeze()`: all size-one dimensions removed. -/
def pruneMaskSqueezedShape (H : Nat) : List Nat := [3 * H]

/-! ## Notebook 02, section 7: recursive batch-norm fusion -/

/-- The classes of torch modules that `fuse_bn_recursively`
distinguishes. -/
inductive ModKind where
  | batchNorm2d
  | identityMod
  | other (tag : Nat)
deriving DecidableEq, Repr

/-- A torch module tree: attribute name (as a numeric tag), its Python
class, its own parameter blob (a numeric stand-in), and the named
children in attribute order. -/
inductive ModuleTree where
  | mk (nm : Nat) (kind : ModKind) (params : Nat) (children : List ModuleTree)

mutual
/-- Decidable equality of module trees. -/
def ModuleTree.decEq : (a b : ModuleTree) → Decidable (a = b)
  | .mk n1 k1 p1 c1, .mk n2 k2 p2 c2 =>
    if hn : n1 = n2 then
      if hk : k1 = k2 then
        if hp : p1 = p2 then
          match ModuleTree.decEqList c1 c2 with
          | isTrue hc => isTrue (by rw [hn, hk, hp, hc])
          | isFalse hc => isFalse (fun he => hc (by cases he; rfl))
        else isFalse (fun he => hp (by cases he; rfl))
      else isFalse (fun he => hk (by cases he; rfl))
    else isFalse (fun he => hn (by cases he; rfl))

/-- Decidable equality of module-tree lists. -/
def ModuleTree.decEqList : (a b : List ModuleTree) → Decidable (a = b)
  | [], [] => isTrue rfl
  | [], _ :: _ => isFalse (fun h => List.noConfusion h)
  | _ :: _, [] => isFalse (fun h => List.noConfusion h)
  | x :: xs, y :: ys =>
    match ModuleTree.decEq x y with
    | isFalse h => isFalse (fun he => h (by cases he; rfl))
    | isTrue h1 =>
      match ModuleTree.decEqList xs ys with
      | isFalse h => isFalse (fun he => h (by cases he; rfl))
      | isTrue h2 => isTrue (by rw [h1, h2])
end

instance : DecidableEq ModuleTree := ModuleTree.decEq

/-- Attribute name of a module. -/
def ModuleTree.nm : ModuleTree → Nat
  | .mk n _ _ _ => n

/-- Python class of a module. -/
def ModuleTree.kind : ModuleTree → ModKind
  | .mk _ k _ _ => k

/-- Parameter blob of a module. -/
def ModuleTree.params : ModuleTree → Nat
  | .mk _ _ p _ => p

/-- Children of a module, `named_children()` in attribute order. -/
def ModuleTree.children : ModuleTree → List ModuleTree
  | .mk _ _ _ ch => ch

mutual
/-- `fuse_bn_recursively` (notebook 02, section 7): for every named
child, recurse first when the child has children, then replace the child
by a fresh `nn.Identity()` when its class is `BatchNorm2d`. -/
def fuse_bn_recursively : ModuleTree → ModuleTree
  | .mk n k p ch => .mk n k p (fuseChildren ch)

/-- The body of the `for module_name, module in model.named_children()`
loop of `fuse_bn_recursively`. -/
def fuseChildren : List ModuleTree → List ModuleTree
  | [] => []
  | c :: rest =>
    let c2 := if c.children.isEmpty then c else fuse_bn_recursively c
    (if c.kind = ModKind.batchNorm2d then ModuleTree.mk c.nm ModKind.identityMod 0 []
     else c2) :: fuseChildren rest
end

mutual
/-- Specification-side restatement of claim C4: every `BatchNorm2d`
strictly below the root is replaced by a fresh Identity module, and every
other module keeps its name, class and parameters, its children rewritten
the same way. -/
def fuseSpec : ModuleTree → ModuleTree
  | .mk n k p ch => .mk n k p (fuseSpecChildren ch)

/-- Child-list form of `fuseSpec`. -/
def fuseSpecChildren : List ModuleTree → List ModuleTree
  | [] => []
  | c :: rest =>
    (if c.kind = ModKind.batchNorm2d then ModuleTree.mk c.nm ModKind.identityMod 0 []
     else fuseSpec c) :: fuseSpecChildren rest
end

mutual
/-- All proper descendants of a module, in depth-first order. -/
def descendants : ModuleTree → List ModuleTree
  | .mk _ _ _ ch => descList ch

/-- Descendant collection over a child list. -/
def descList : List ModuleTree → List ModuleTree
  | [] => []
  | c :: rest => c :: (descendants c ++ descList rest)
end

/-! ## Notebook 02, section 4, and notebook 01, section 3: training loops

The model object is an opaque state `M`; the framework calls made by the
loops are parameters: the model's forward pass (which may raise), the
loss criterion, and the combined effect on the model of
`scaler.scale(loss).backward(); scaler.step(optimizer); scaler.update()`.
Losses and accuracies are rationals. -/

/-- A dataloader for classification: each yielded batch is the list of
examples together with the integer target labels. -/
abbrev Loader (Ex : Type) : Type := List (List Ex × List Nat)

/-- The framework environment used by `train_epoch`, `validate` and
`apply_qaf`.  `zde` is the value of a Python `ZeroDivisionError`. -/
structure EpochCtx (M Ex E : Type) where
  modelFwd : M → List Ex → Except E (List (List ℚ))
  criterion : List (List ℚ) → List Nat → ℚ
  optStep : M → List Ex → List Nat → M
  zde : E

/-- Scan for the first position of the maximum. -/
def argmaxGo (best : Nat) (bv : ℚ) (i : Nat) : List ℚ → Nat
  | [] => best
  | y :: ys => if bv < y then argmaxGo i y (i + 1) ys else argmaxGo best bv (i + 1) ys

/-- The index delivered by `outputs.max(1)` for one example's logits: the
first position holding the maximum. -/
def argmaxIdx : List ℚ → Nat
  | [] => 0
  | x :: xs => argmaxGo 0 x 1 xs

/-- The value of `predicted.eq(targets).sum().item()`. -/
def countEq (predicted targets : List Nat) : Nat :=
  (List.zipWith (fun p t => if p = t then (1 : Nat) else 0) predicted targets).sum

/-- Python division on floats: raises `ZeroDivisionError` on a zero
denominator. -/
def pydiv {E : Type} (zde : E) (a b : ℚ) : Except E ℚ :=
  if b = 0 then Except.error zde else Except.ok (a / b)

/-- The `for inputs, targets in loader` loop of `train_epoch`, carrying
the accumulators `total_loss`, `correct` and `total` and the model state
mutated by the optimizer step. -/
def trainLoop {M Ex E : Type} (ctx : EpochCtx M Ex E) :
    M → ℚ → Nat → Nat → Loader Ex → Except E (M × ℚ × Nat × Nat)
  | m, total_loss, correct, total, [] => Except.ok (m, total_loss, correct, total)
  | m, total_loss, correct, total, (inputs, targets) :: rest =>
    match ctx.modelFwd m inputs with
    | Except.error e => Except.error e
    | Except.ok outputs =>
      let loss := ctx.criterion outputs targets
      let m2 := ctx.optStep m inputs targets
      let predicted := outputs.map argmaxIdx
      trainLoop ctx m2 (total_loss + loss) (correct + countEq predicted targets)
        (total + targets.length) rest

/-- `train_epoch` (notebook 02, section 4).  Returns the reported pair
`(total_loss / len loader, 100 * correct / total)` together with the
model state after the epoch's optimizer steps. -/
def train_epoch {M Ex E : Type} (ctx : EpochCtx M Ex E) (m : M) (loader : Loader Ex) :
    Except E ((ℚ × ℚ) × M) :=
  match trainLoop ctx m 0 0 0 loader with
  | Except.error e => Except.error e
  | Except.ok (m2, total_loss, correct, total) =>
    match pydiv ctx.zde total_loss (loader.length : ℚ) with
    | Except.error e => Except.error e
    | Except.ok avg =>
      match pydiv ctx.zde (100 * (correct : ℚ)) (total : ℚ) with
      | Except.error e => Except.error e
      | Except.ok acc => Except.ok ((avg, acc), m2)

/-- The `with torch.no_grad()` loop of `validate`: same accumulators, no
optimizer step, the model unchanged. -/
def valLoop {M Ex E : Type} (ctx : EpochCtx M Ex E) (m : M) :
    ℚ → Nat → Nat → Loader Ex → Except E (ℚ × Nat × Nat)
  | total_loss, correct, total, [] => Except.ok (total_loss, correct, total)
  | total_loss, correct, total, (inputs, targets) :: rest =>
    match ctx.modelFwd m inputs with
    | Except.error e => Except.error e
    | Except.ok outputs =>
      let loss := ctx.criterion outputs targets
      let predicted := outputs.map argmaxIdx
      valLoop ctx m (total_loss + loss) (correct + countEq predicted targets)
        (total + targets.length) rest

/-- `validate` (notebook 02, section 4). -/
def validate {M Ex E : Type} (ctx : EpochCtx M Ex E) (m : M) (loader : Loader Ex) :
    Except E (ℚ × ℚ) :=
  match valLoop ctx m 0 0 0 loader with
  | Except.error e => Except.error e
  | Except.ok (total_loss, correct, total) =>
    match pydiv ctx.zde total_loss (loader.length : ℚ) with
    | Except.error e => Except.error e
    | Except.ok avg =>
      match pydiv ctx.zde (100 * (correct : ℚ)) (total : ℚ) with
      | Except.error e => Except.error e
      | Except.ok acc => Except.ok (avg, acc)

/-- The inner batch loop of `fine_tune` (notebook 01, section 3): the
loss comes from `model(inputs, labels=inputs.clone()).loss`, abstracted
as `lossOf`; the scaler and optimizer mutate the model, abstracted as
`optStep`. -/
def ftBatchLoop {M B E : Type} (lossOf : M → B → Except E ℚ) (optStep : M → B → M) :
    M → ℚ → List B → Except E (M × ℚ)
  | m, total_loss, [] => Except.ok (m, total_loss)
  | m, total_loss, batch :: rest =>
    match lossOf m batch with
    | Except.error e => Except.error e
    | Except.ok loss => ftBatchLoop lossOf optStep (optStep m batch) (total_loss + loss) rest

/-- The epoch loop of `fine_tune`, collecting the per-epoch average
losses that the source prints. -/
def ftEpochLoop {M B E : Type} (lossOf : M → B → Except E ℚ) (optStep : M → B → M)
    (zde : E) (loader : List B) : M → Nat → Except E (M × List ℚ)
  | m, 0 => Except.ok (m, [])
  | m, Nat.succ k =>
    match ftBatchLoop lossOf optStep m 0 loader with
    | Except.error e => Except.error e
    | Except.ok (m2, total_loss) =>
      match pydiv zde total_loss (loader.length : ℚ) with
      | Except.error e => Except.error e
      | Except.ok avg =>
        match ftEpochLoop lossOf optStep zde loader m2 k with
        | Except.error e => Except.error e
        | Except.ok (m3, avgs) => Except.ok (m3, avg :: avgs)

/-- `fine_tune` (notebook 01, section 3): returns the final model state
and the list of per-epoch average losses printed on the console. -/
def fine_tune {M B E : Type} (lossOf : M → B → Except E ℚ) (optStep : M → B → M)
    (zde : E) (m : M) (train_dataloader : List B) (epochs : Nat) :
    Except E (M × List ℚ) :=
  ftEpochLoop lossOf optStep zde train_dataloader m epochs

/-! ## Notebook 02, section 5: quantization-aware fine-tuning -/

/-- The epoch loop of `apply_qaf`: per epoch the observer toggles are
applied (`enable_observer` only from the second epoch on), then
`train_epoch` and `validate` run; the framework effects `dObs`, `eFq`,
`eObs` on the model are abstract. -/
def qafEpochLoop {M Ex E : Type} (ctx : EpochCtx M Ex E) (dObs eFq eObs : M → M)
    (tl vl : Loader Ex) : M → Nat → Nat → Except E M
  | m, _, 0 => Except.ok m
  | m, epoch, Nat.succ k =>
    let m1 := eFq (dObs m)
    let m2 := if 0 < epoch then eObs m1 else m1
    match train_epoch ctx m2 tl with
    | Except.error e => Except.error e
    | Except.ok (_, m3) =>
      match validate ctx m3 vl with
      | Except.error e => Except.error e
      | Except.ok _ => qafEpochLoop ctx dObs eFq eObs tl vl m3 (epoch + 1) k

/-- `apply_qaf` (notebook 02, section 5) with framework effects
abstracted: `prepQat` is `prepare_qat`, `retainFL` the re-assignment of
`patch_embed` and `head`, and `cvt` the final `convert`. -/
def apply_qaf {M Ex E : Type} (ctx : EpochCtx M Ex E)
    (prepQat retainFL dObs eFq eObs cvt : M → M)
    (m : M) (tl vl : Loader Ex) (epochs : Nat) : Except E M :=
  match qafEpochLoop ctx dObs eFq eObs tl vl (retainFL (prepQat m)) 0 epochs with
  | Except.error e => Except.error e
  | Except.ok mf => Except.ok (cvt mf)

/-! ## Specification-side functions for the reported metrics (claim C6) -/

/-- The environment whose framework calls all succeed, with the forward
pass given by the total function `fwd`. -/
def pureCtx {M Ex E : Type} (fwd : M → List Ex → List (List ℚ))
    (crit : List (List ℚ) → List Nat → ℚ) (st : M → List Ex → List Nat → M)
    (zde : E) : EpochCtx M Ex E :=
  { modelFwd := fun m i => Except.ok (fwd m i), criterion := crit,
    optStep := st, zde := zde }

/-- The per-batch loss values along the training trajectory. -/
def batchLosses {M Ex : Type} (fwd : M → List Ex → List (List ℚ))
    (crit : List (List ℚ) → List Nat → ℚ) (st : M → List Ex → List Nat → M) :
    M → Loader Ex → List ℚ
  | _, [] => []
  | m, (inputs, targets) :: rest =>
    crit (fwd m inputs) targets :: batchLosses fwd crit st (st m inputs targets) rest

/-- The number of examples whose argmax prediction equals the target,
along the training trajectory. -/
def correctCount {M Ex : Type} (fwd : M → List Ex → List (List ℚ))
    (st : M → List Ex → List Nat → M) : M → Loader Ex → Nat
  | _, [] => 0
  | m, (inputs, targets) :: rest =>
    countEq ((fwd m inputs).map argmaxIdx) targets +
      correctCount fwd st (st m inputs targets) rest

/-- The total number of examples yielded by a loader. -/
def exampleCount {Ex : Type} : Loader Ex → Nat
  | [] => 0
  | (_, targets) :: rest => targets.length + exampleCount rest

/-- The model state after one epoch of optimizer steps. -/
def finalModel {M Ex : Type} (st : M → List Ex → List Nat → M) :
    M → Loader Ex → M
  | m, [] => m
  | m, (inputs, targets) :: rest => finalModel st (st m inputs targets) rest

/-- The per-batch loss values computed by `validate`: the model is not
updated, so every batch sees the same state. -/
def valLosses {M Ex : Type} (fwd : M → List Ex → List (List ℚ))
    (crit : List (List ℚ) → List Nat → ℚ) (m : M) : Loader Ex → List ℚ
  | [] => []
  | (inputs, targets) :: rest => crit (fwd m inputs) targets :: valLosses fwd crit m rest

/-- The number of examples `validate` classifies correctly. -/
def valCorrect {M Ex : Type} (fwd : M → List Ex → List (List ℚ)) (m : M) :
    Loader Ex → Nat
  | [] => 0
  | (inputs, targets) :: rest =>
    countEq ((fwd m inputs).map argmaxIdx) targets + valCorrect fwd m rest

/-- Per-batch `fine_tune` losses of one epoch along the trajectory. -/
def epochLossList {M B : Type} (lossOf : M → B → ℚ) (st : M → B → M) :
    M → List B → List ℚ
  | _, [] => []
  | m, b :: rest => lossOf m b :: epochLossList lossOf st (st m b) rest

/-- Model state after one `fine_tune` epoch. -/
def epochFinal {M B : Type} (st : M → B → M) : M → List B → M
  | m, [] => m
  | m, b :: rest => epochFinal st (st m b) rest

/-- The per-epoch lists of batch losses over a `fine_tune` run. -/
def ftEpochLosses {M B : Type} (lossOf : M → B → ℚ) (st : M → B → M)
    (loader : List B) : M → Nat → List (List ℚ)
  | _, 0 => []
  | m, Nat.succ k =>
    epochLossList lossOf st m loader ::
      ftEpochLosses lossOf st loader (epochFinal st m loader) k

/-- Model state after a whole `fine_tune` run. -/
def ftFinalModel {M B : Type} (st : M → B → M) (loader : List B) : M → Nat → M
  | m, 0 => m
  | m, Nat.succ k => ftFinalModel st loader (epochFinal st m loader) k

/-! ## Claim C7: top-level pipeline order of the two notebooks -/

/-- The optimization stages executed at the notebooks' top level. -/
inductive Stage where
  | loadModel
  | prepareData
  | fineTuneStage
  | applyPtqStage
  | applyQafStage
  | quantAttnWrap
  | kvCacheWrap
  | dynamicQuantStage
  | pruneHeads
  | fuseLayers
  | verifyQuant
  | exportOnnx
  | onnxInferStage
  | optimizeMobile
  | benchmarkStage
deriving DecidableEq, Repr

/-- Top-level cell order of notebook 01: load GPT-2, mixed-precision
fine-tuning, `apply_ptq`, the two attention-wrapper replacements, the
dynamic-quantization helper, ONNX export, ONNX inference, benchmark.
The notebook contains no pruning and no layer-fusion stage. -/
def notebook1_stages : List Stage :=
  [Stage.loadModel, Stage.fineTuneStage, Stage.applyPtqStage, Stage.quantAttnWrap,
   Stage.kvCacheWrap, Stage.dynamicQuantStage, Stage.exportOnnx,
   Stage.onnxInferStage, Stage.benchmarkStage]

/-- Top-level cell order of notebook 02: load ViT, dataset preparation,
mixed-precision fine-tuning, `apply_qaf`, `prune_attention_heads`,
`fuse_bn_recursively`, quantization check, `optimize_for_mobile`,
benchmark. -/
def notebook2_stages : List Stage :=
  [Stage.loadModel, Stage.prepareData, Stage.fineTuneStage, Stage.applyQafStage,
   Stage.pruneHeads, Stage.fuseLayers, Stage.verifyQuant, Stage.optimizeMobile,
   Stage.benchmarkStage]

/-! ## Lemmas about row lengths of the KV-cache tensors -/

/-- A projection applied pointwise preserves every row's length. -/
theorem applyProj_row_length {V W : Type} (f : V → W) (t : Tensor3 V) (L : Nat)
    (ht : ∀ r ∈ t, r.length = L) : ∀ r ∈ applyProj f t, r.length = L := by
  intro r hr
  rcases List.mem_map.mp hr with ⟨r0, hr0, rfl⟩
  simpa using ht r0 hr0

/-- The `-1:` slice of a tensor with nonempty rows has rows of length
one. -/
theorem lastSlice_row_length {V : Type} (t : Tensor3 V) (hne : ∀ r ∈ t, r ≠ []) :
    ∀ r ∈ lastSlice t, r.length = 1 := by
  intro r hr
  rcases List.mem_map.mp hr with ⟨r0, hr0, rfl⟩
  have h0 : r0.length ≠ 0 := by
    intro h
    exact hne r0 hr0 (List.length_eq_zero.mp h)
  simp only [List.length_drop]
  omega

/-- Concatenating rows of length `L` with rows of length one along
dimension 1 yields rows of length `L + 1`. -/
theorem catDim1_row_length {V : Type} (L : Nat) :
    ∀ (xs ys : Tensor3 V), (∀ r ∈ xs, r.length = L) → (∀ r ∈ ys, r.length = 1) →
      ∀ r ∈ catDim1 xs ys, r.length = L + 1 := by
  intro xs
  induction xs with
  | nil => intro ys hx hy r hr; simp [catDim1] at hr
  | cons x xt ih =>
    intro ys hx hy r hr
    cases ys with
    | nil => simp [catDim1] at hr
    | cons y yt =>
      simp only [catDim1, List.zipWith_cons_cons] at hr
      rcases List.mem_cons.mp hr with h | h
      · subst h
        rw [List.length_append, hx x (List.mem_cons_self x xt),
          hy y (List.mem_cons_self y yt)]
      · exact ih yt (fun r hr => hx r (List.mem_cons_of_mem _ hr))
          (fun r hr => hy r (List.mem_cons_of_mem _ hr)) r h

/-- C1: on the first call of `CachedQuantizedAttention.forward` the key
and value projections of the full `hidden_states` are computed, stored as
the cache, and returned together with the query of the full input; on
every subsequent call the key and value are computed only of the last
sequence position `hidden_states[:, -1:, :]`, appended to the caches by
concatenation along dimension 1, and the query of the full input is
returned together with the grown caches. -/
theorem spec_C1_cached_forward :
    (∀ (V W : Type) (attn : QuantAttn V W) (h : Tensor3 V),
      CachedQuantizedAttention.forward attn CachedState.init h =
        some ((applyProj attn.query h, applyProj attn.key h, applyProj attn.value h),
          { cached_key := some (applyProj attn.key h),
            cached_value := some (applyProj attn.value h) })) ∧
    (∀ (V W : Type) (attn : QuantAttn V W) (ck cv : Tensor3 W) (h : Tensor3 V),
      CachedQuantizedAttention.forward attn
          { cached_key := some ck, cached_value := some cv } h =
        some ((applyProj attn.query h,
            catDim1 ck (applyProj attn.key (lastSlice h)),
            catDim1 cv (applyProj attn.value (lastSlice h))),
          { cached_key := some (catDim1 ck (applyProj attn.key (lastSlice h))),
            cached_value := some (catDim1 cv (applyProj attn.value (lastSlice h))) })) := by
  constructor
  · intro V W attn h
    rfl
  · intro V W attn ck cv h
    rfl

/-- C8: a successful call of forward always leaves both caches populated
(the class has no operation that clears or shrinks them), and a call on a
populated cache whose rows have sequence length `L`, with an input whose
rows are nonempty, grows both caches to rows of sequence length `L + 1`:
the cache grows by exactly one position per call, without bound. -/
theorem spec_C8_cache_growth :
    (∀ (V W : Type) (attn : QuantAttn V W) (s : CachedState W) (h : Tensor3 V)
        (out : Tensor3 W × Tensor3 W × Tensor3 W) (s2 : CachedState W),
      CachedQuantizedAttention.forward attn s h = some (out, s2) →
      s2.cached_key.isSome ∧ s2.cached_value.isSome) ∧
    (∀ (V W : Type) (attn : QuantAttn V W) (ck cv : Tensor3 W) (h : Tensor3 V) (L : Nat),
      (∀ r ∈ h, r ≠ []) → (∀ r ∈ ck, r.length = L) → (∀ r ∈ cv, r.length = L) →
      ∀ (out : Tensor3 W × Tensor3 W × Tensor3 W) (s2 : CachedState W),
        CachedQuantizedAttention.forward attn
            { cached_key := some ck, cached_value := some cv } h = some (out, s2) →
        ∃ ck2 cv2, s2 = { cached_key := some ck2, cached_value := some cv2 } ∧
          (∀ r ∈ ck2, r.length = L + 1) ∧ (∀ r ∈ cv2, r.length = L + 1)) := by
  constructor
  · intro V W attn s h out s2 hf
    obtain ⟨sk, sv⟩ := s
    cases sk with
    | none =>
      simp only [CachedQuantizedAttention.forward, Option.some.injEq, Prod.mk.injEq] at hf
      obtain ⟨-, rfl⟩ := hf
      exact ⟨rfl, rfl⟩
    | some ck =>
      cases sv with
      | none => simp [CachedQuantizedAttention.forward] at hf
      | some cv =>
        simp only [CachedQuantizedAttention.forward, Option.some.injEq, Prod.mk.injEq] at hf
        obtain ⟨-, rfl⟩ := hf
        exact ⟨rfl, rfl⟩
  · intro V W attn ck cv h L hne hck hcv out s2 hf
    simp only [CachedQuantizedAttention.forward, Option.some.injEq, Prod.mk.injEq] at hf
    obtain ⟨-, rfl⟩ := hf
    refine ⟨catDim1 ck (applyProj attn.key (lastSlice h)),
      catDim1 cv (applyProj attn.value (lastSlice h)), rfl, ?_, ?_⟩
    · exact catDim1_row_length L ck _ hck
        (applyProj_row_length _ _ 1 (lastSlice_row_length h hne))
    · exact catDim1_row_length L cv _ hcv
        (applyProj_row_length _ _ 1 (lastSlice_row_length h hne))

/-- Witness for C8 at a concrete two-row batch: from the cache of
sequence length one, one forward call yields caches of sequence length
two. -/
theorem spec_C8_witness :
    ((CachedState.mk (some [[5, 6], [7, 8]]) (some [[5, 6], [7, 8]]) :
        CachedState Nat).cached_key.isSome ∧
      (CachedState.mk (some [[5, 6], [7, 8]]) (some [[5, 6], [7, 8]]) :
        CachedState Nat).cached_value.isSome) ∧
    (∃ ck2 cv2,
      (CachedState.mk (some [[1, 6], [2, 8]]) (some [[3, 6], [4, 8]]) : CachedState Nat) =
        { cached_key := some ck2, cached_value := some cv2 } ∧
        (∀ r ∈ ck2, r.length = 1 + 1) ∧ (∀ r ∈ cv2, r.length = 1 + 1)) := by
  constructor
  · exact spec_C8_cache_growth.1 Nat Nat
      { query := fun x => x, key := fun x => x, value := fun x => x }
      CachedState.init [[5, 6], [7, 8]] _ _ rfl
  · exact spec_C8_cache_growth.2 Nat Nat
      { query := fun x => x, key := fun x => x, value := fun x => x }
      [[1], [2]] [[3], [4]] [[5, 6], [7, 8]] 1
      (by decide) (by decide) (by decide) _ _ rfl

/-! ## Theorems about `apply_ptq` -/

/-- The calibration loop emits one no-grad forward step per batch, keeps
the parameters, and only appends to the observer statistics. -/
theorem calibrate_trace {P B : Type} : ∀ (dl : List B) (m : GPT2State P B),
    (calibrate m dl).2 = dl.map (fun b => PtqStep.calibForward b false) ∧
    (calibrate m dl).1.params = m.params ∧
    (calibrate m dl).1 = { m with observed := m.observed ++ dl }
  | [], m => by simp [calibrate]
  | b :: dl, m => by
    have ih := calibrate_trace dl { m with observed := m.observed ++ [b] }
    refine ⟨?_, ?_, ?_⟩
    · simp only [calibrate, List.map_cons]
      rw [ih.1]
    · simp only [calibrate]
      rw [ih.2.1]
    · simp only [calibrate]
      rw [ih.2.2]
      simp

/-- C3: `apply_ptq` assigns the default quantization configuration,
prepares the model, runs a calibration pass consisting of exactly one
forward pass per batch of the dataloader with gradient tracking disabled,
and then converts; the calibration pass leaves every model parameter
unchanged.  (The three FP16 retention assignments that follow the convert
step are the subject of claim C10.) -/
theorem spec_C3_apply_ptq :
    ∀ (P B : Type) (m : GPT2State P B) (dl : List B),
      (apply_ptq m dl).2 =
        [PtqStep.setQconfig, PtqStep.prepareModel] ++
          dl.map (fun b => PtqStep.calibForward b false) ++
          [PtqStep.convertModel, PtqStep.halfWte, PtqStep.halfWpe, PtqStep.halfLmHead] ∧
      (calibrate { m with hasQconfig := true, observed := [] } dl).1.params = m.params := by
  intro P B m dl
  constructor
  · simp only [apply_ptq]
    rw [(calibrate_trace dl _).1]
  · exact (calibrate_trace dl _).2.1

/-- C10: after `apply_ptq model dl` the `Module.half()` calls have turned
the embedding layers and the output head of the original, passed-in model
to FP16 — not only those of the returned quantized model — while the
original model's parameter blob is untouched. -/
theorem spec_C10_half_in_place :
    ∀ (P B : Type) (m : GPT2State P B) (dl : List B),
      ((apply_ptq m dl).1.1.wte = Precision.fp16 ∧
        (apply_ptq m dl).1.1.wpe = Precision.fp16 ∧
        (apply_ptq m dl).1.1.lm_head = Precision.fp16) ∧
      ((apply_ptq m dl).1.2.wte = Precision.fp16 ∧
        (apply_ptq m dl).1.2.wpe = Precision.fp16 ∧
        (apply_ptq m dl).1.2.lm_head = Precision.fp16) ∧
      (apply_ptq m dl).1.1.params = m.params := by
  intro P B m dl
  exact ⟨⟨rfl, rfl, rfl⟩, ⟨rfl, rfl, rfl⟩, rfl⟩

/-! ## Theorems about the pruning mask shapes -/

/-- Broadcasting the three-dimensional pruning mask against the
two-dimensional qkv weight produces a three-dimensional shape. -/
theorem bcast_qkv_mask (H D : Nat) :
    broadcastShape (qkvWeightShape H D) (pruneMaskShape H) =
      some [3 * H, 3 * (H * D), H * D] := by
  unfold broadcastShape qkvWeightShape pruneMaskShape
  by_cases h1 : H * D = 1 <;> by_cases h2 : 3 * (H * D) = 1 <;>
    simp [bcastRev, h1, h2]

/-- C2 (code bug): the in-place update `module.qkv.weight.data *= mask`
of `prune_attention_heads` is rejected by torch for every head count `H`
and head dimension `D`: the mask shape `[3*H, 1, 1]` broadcast against
the weight shape `[3*(H*D), H*D]` gives a three-dimensional result, which
an in-place operation cannot write back, so a RuntimeError is raised and
no head is ever zeroed; in particular for the ViT-base attention shape of
12 heads of dimension 64. -/
theorem spec_C2_inplace_mul_fails :
    inplaceMulOk (qkvWeightShape 12 64) (pruneMaskShape 12) = false ∧
    ∀ H D : Nat, inplaceMulOk (qkvWeightShape H D) (pruneMaskShape H) = false := by
  constructor
  · decide
  · intro H D
    unfold inplaceMulOk
    rw [bcast_qkv_mask]
    rw [beq_eq_false_iff_ne]
    intro hok
    have h2 := congrArg List.length (Option.some.inj hok)
    simp [qkvWeightShape] at h2

/-! ## Theorems about `fuse_bn_recursively` -/

/-- The specification-side rewrite keeps the root's class. -/
theorem fuseSpec_kind (m : ModuleTree) : (fuseSpec m).kind = m.kind := by
  cases m with
  | mk n k p ch => rfl

mutual
/-- The source recursion agrees with the specification-side rewrite. -/
theorem fuse_eq_fuseSpec : ∀ m : ModuleTree, fuse_bn_recursively m = fuseSpec m
  | .mk n k p ch => by
    simp only [fuse_bn_recursively, fuseSpec]
    exact congrArg (ModuleTree.mk n k p) (fuseChildren_eq ch)

/-- Child-list form of `fuse_eq_fuseSpec`. -/
theorem fuseChildren_eq : ∀ l : List ModuleTree, fuseChildren l = fuseSpecChildren l
  | [] => rfl
  | c :: rest => by
    simp only [fuseChildren, fuseSpecChildren]
    rw [fuseChildren_eq rest]
    have hhead :
        (if c.kind = ModKind.batchNorm2d then ModuleTree.mk c.nm ModKind.identityMod 0 []
          else if c.children.isEmpty then c else fuse_bn_recursively c) =
        (if c.kind = ModKind.batchNorm2d then ModuleTree.mk c.nm ModKind.identityMod 0 []
          else fuseSpec c) := by
      by_cases hb : c.kind = ModKind.batchNorm2d
      · simp [hb]
      · simp only [if_neg hb]
        by_cases hch : c.children.isEmpty
        · cases c with
          | mk n2 k2 p2 ch2 =>
            have hnil : ch2 = [] := by
              simpa [ModuleTree.children] using hch
            subst hnil
            simp [fuseSpec, fuseSpecChildren, ModuleTree.children]
        · simp only [hch, Bool.false_eq_true, if_false]
          exact fuse_eq_fuseSpec c
    rw [hhead]
end

mutual
/-- No proper descendant of the rewritten tree is a batch norm. -/
theorem fuseSpec_kinds : ∀ (m : ModuleTree) (d : ModuleTree),
    d ∈ descendants (fuseSpec m) → (d.kind == ModKind.batchNorm2d) = false
  | .mk n k p ch, d => by
    intro hd
    simp only [fuseSpec, descendants] at hd
    exact fuseSpecChildren_kinds ch d hd

/-- Child-list form of `fuseSpec_kinds`. -/
theorem fuseSpecChildren_kinds : ∀ (l : List ModuleTree) (d : ModuleTree),
    d ∈ descList (fuseSpecChildren l) → (d.kind == ModKind.batchNorm2d) = false
  | [], d => by
    intro hd
    simp [fuseSpecChildren, descList] at hd
  | c :: rest, d => by
    intro hd
    simp only [fuseSpecChildren, descList, List.mem_cons, List.mem_append] at hd
    by_cases hb : c.kind = ModKind.batchNorm2d
    · simp only [hb, if_pos] at hd
      rcases hd with hd | hd | hd
      · subst hd
        rfl
      · simp [descendants, descList] at hd
      · exact fuseSpecChildren_kinds rest d hd
    · simp only [if_neg hb] at hd
      rcases hd with hd | hd | hd
      · subst hd
        rw [fuseSpec_kind]
        simpa using hb
      · exact fuseSpec_kinds c d hd
      · exact fuseSpecChildren_kinds rest d hd
end

/-- C4: after `fuse_bn_recursively` every `BatchNorm2d` submodule at any
nesting depth below the root has been replaced by an Identity module, and
every submodule that is not a `BatchNorm2d` keeps its name, class and
parameters (the first conjunct equates the function with the
specification-side rewrite `fuseSpec`, which states exactly that);
consequently no proper descendant of the result is a `BatchNorm2d`. -/
theorem spec_C4_fuse_bn :
    (∀ m : ModuleTree, fuse_bn_recursively m = fuseSpec m) ∧
    (∀ m : ModuleTree, ∀ d ∈ descendants (fuse_bn_recursively m),
      (d.kind == ModKind.batchNorm2d) = false) := by
  refine ⟨fuse_eq_fuseSpec, ?_⟩
  intro m d hd
  rw [fuse_eq_fuseSpec m] at hd
  exact fuseSpec_kinds m d hd

/-- Witness for C4 on a concrete tree with a batch norm at depth one and
another at depth two. -/
theorem spec_C4_witness :
    ((ModuleTree.mk 1 ModKind.identityMod 0 []).kind == ModKind.batchNorm2d) = false :=
  spec_C4_fuse_bn.2
    (ModuleTree.mk 0 (ModKind.other 0) 0
      [ModuleTree.mk 1 ModKind.batchNorm2d 5 [],
        ModuleTree.mk 2 (ModKind.other 1) 3 [ModuleTree.mk 3 ModKind.batchNorm2d 7 []]])
    (ModuleTree.mk 1 ModKind.identityMod 0 []) (by decide)

/-! ## Claim C7: pipeline order -/

/-- C7 counterexample: the language-model notebook contains neither a
pruning stage nor a layer-fusion stage, so the claimed fixed pipeline
(in which each notebook prunes and/or fuses between quantization and
export) fails for notebook 01. -/
theorem spec_C7_counterexample :
    notebook1_stages.contains Stage.pruneHeads = false ∧
    notebook1_stages.contains Stage.fuseLayers = false := by
  decide

/-- C7 (amended): notebook 02 runs load, fine-tune, quantization-aware
fine-tuning, prune, fuse, optimize-for-target, benchmark in that order
with benchmark last; notebook 01 runs load, fine-tune, PTQ, export,
benchmark in that order with benchmark last but contains no prune or
fuse stage; within each notebook the cells run sequentially, so no later
stage starts before the preceding one has completed. -/
theorem spec_C7_amended :
    (notebook2_stages.indexOf Stage.loadModel < notebook2_stages.indexOf Stage.fineTuneStage ∧
      notebook2_stages.indexOf Stage.fineTuneStage < notebook2_stages.indexOf Stage.applyQafStage ∧
      notebook2_stages.indexOf Stage.applyQafStage < notebook2_stages.indexOf Stage.pruneHeads ∧
      notebook2_stages.indexOf Stage.pruneHeads < notebook2_stages.indexOf Stage.fuseLayers ∧
      notebook2_stages.indexOf Stage.fuseLayers < notebook2_stages.indexOf Stage.optimizeMobile ∧
      notebook2_stages.indexOf Stage.optimizeMobile < notebook2_stages.indexOf Stage.benchmarkStage ∧
      notebook2_stages.indexOf Stage.benchmarkStage = notebook2_stages.length - 1) ∧
    (notebook1_stages.indexOf Stage.loadModel < notebook1_stages.indexOf Stage.fineTuneStage ∧
      notebook1_stages.indexOf Stage.fineTuneStage < notebook1_stages.indexOf Stage.applyPtqStage ∧
      notebook1_stages.indexOf Stage.applyPtqStage < notebook1_stages.indexOf Stage.exportOnnx ∧
      notebook1_stages.indexOf Stage.exportOnnx < notebook1_stages.indexOf Stage.benchmarkStage ∧
      notebook1_stages.indexOf Stage.benchmarkStage = notebook1_stages.length - 1 ∧
      notebook1_stages.contains Stage.pruneHeads = false ∧
      notebook1_stages.contains Stage.fuseLayers = false) := by
  decide

/-! ## Lemmas about the training loops -/

/-- The training loop with successful framework calls accumulates the sum
of the per-batch losses, the count of correct predictions and the example
count along the optimizer trajectory. -/
theorem trainLoop_pure {M Ex E : Type} (fwd : M → List Ex → List (List ℚ))
    (crit : List (List ℚ) → List Nat → ℚ) (st : M → List Ex → List Nat → M) (zde : E) :
    ∀ (loader : Loader Ex) (m : M) (tl : ℚ) (c t : Nat),
      trainLoop (pureCtx fwd crit st zde) m tl c t loader =
        Except.ok (finalModel st m loader,
          tl + (batchLosses fwd crit st m loader).sum,
          c + correctCount fwd st m loader,
          t + exampleCount loader) := by
  intro loader
  induction loader with
  | nil =>
    intro m tl c t
    simp [trainLoop, finalModel, batchLosses, correctCount, exampleCount]
  | cons b rest ih =>
    obtain ⟨inputs, targets⟩ := b
    intro m tl c t
    simp only [trainLoop, pureCtx]
    simp only [pureCtx] at ih
    rw [ih]
    simp [finalModel, batchLosses, correctCount, exampleCount, add_assoc]

/-- The validation loop with successful framework calls accumulates the
same quantities at a fixed model state. -/
theorem valLoop_pure {M Ex E : Type} (fwd : M → List Ex → List (List ℚ))
    (crit : List (List ℚ) → List Nat → ℚ) (st : M → List Ex → List Nat → M) (zde : E)
    (m : M) :
    ∀ (loader : Loader Ex) (tl : ℚ) (c t : Nat),
      valLoop (pureCtx fwd crit st zde) m tl c t loader =
        Except.ok (tl + (valLosses fwd crit m loader).sum,
          c + valCorrect fwd m loader, t + exampleCount loader) := by
  intro loader
  induction loader with
  | nil =>
    intro tl c t
    simp [valLoop, valLosses, valCorrect, exampleCount]
  | cons b rest ih =>
    obtain ⟨inputs, targets⟩ := b
    intro tl c t
    simp only [valLoop, pureCtx]
    simp only [pureCtx] at ih
    rw [ih]
    simp [valLosses, valCorrect, exampleCount, add_assoc]

/-- The inner `fine_tune` batch loop with successful framework calls
accumulates the epoch's loss sum along the optimizer trajectory. -/
theorem ftBatchLoop_pure {M B E : Type} (lossOf : M → B → ℚ) (st : M → B → M) :
    ∀ (loader : List B) (m : M) (tl : ℚ),
      ftBatchLoop (fun m2 b => (Except.ok (lossOf m2 b) : Except E ℚ)) st m tl loader =
        Except.ok (epochFinal st m loader, tl + (epochLossList lossOf st m loader).sum) := by
  intro loader
  induction loader with
  | nil =>
    intro m tl
    simp [ftBatchLoop, epochFinal, epochLossList]
  | cons b rest ih =>
    intro m tl
    simp only [ftBatchLoop]
    rw [ih]
    simp [epochFinal, epochLossList, add_assoc]

/-- The `fine_tune` epoch loop with successful framework calls reports
one average — epoch loss sum over batch count — per epoch. -/
theorem ftEpochLoop_pure {M B E : Type} (lossOf : M → B → ℚ) (st : M → B → M)
    (zde : E) (loader : List B) (hne : loader ≠ []) :
    ∀ (epochs : Nat) (m : M),
      ftEpochLoop (fun m2 b => (Except.ok (lossOf m2 b) : Except E ℚ)) st zde loader m epochs =
        Except.ok (ftFinalModel st loader m epochs,
          (ftEpochLosses lossOf st loader m epochs).map
            (fun ls => ls.sum / (loader.length : ℚ))) := by
  have hl0 : loader.length ≠ 0 := fun h => hne (List.length_eq_zero.mp h)
  have hlq : (loader.length : ℚ) ≠ 0 := Nat.cast_ne_zero.mpr hl0
  intro epochs
  induction epochs with
  | zero =>
    intro m
    simp [ftEpochLoop, ftFinalModel, ftEpochLosses]
  | succ k ih =>
    intro m
    simp only [ftEpochLoop]
    rw [ftBatchLoop_pure]
    simp only [pydiv, hlq, if_false, zero_add]
    rw [ih]
    simp [ftFinalModel, ftEpochLosses]

/-- C6: with all framework calls succeeding, `train_epoch` and `validate`
return the pair (total loss / number of batches, 100 * correct / total),
the arithmetic mean of the per-batch loss values and the percentage of
examples whose argmax prediction equals the target — the values the
notebooks print; and each per-epoch average loss reported by `fine_tune`
is that epoch's sum of batch losses divided by the number of batches.  A
torch dataloader never yields an empty batch, so a loader that yields at
least one batch carries at least one example — the hypothesis on
`exampleCount`. -/
theorem spec_C6_metrics :
    (∀ (M Ex E : Type) (fwd : M → List Ex → List (List ℚ))
        (crit : List (List ℚ) → List Nat → ℚ) (st : M → List Ex → List Nat → M)
        (zde : E) (m : M) (loader : Loader Ex),
      loader ≠ [] → 0 < exampleCount loader →
      train_epoch (pureCtx fwd crit st zde) m loader =
        Except.ok (((batchLosses fwd crit st m loader).sum / (loader.length : ℚ),
            100 * (correctCount fwd st m loader : ℚ) / (exampleCount loader : ℚ)),
          finalModel st m loader)) ∧
    (∀ (M Ex E : Type) (fwd : M → List Ex → List (List ℚ))
        (crit : List (List ℚ) → List Nat → ℚ) (st : M → List Ex → List Nat → M)
        (zde : E) (m : M) (loader : Loader Ex),
      loader ≠ [] → 0 < exampleCount loader →
      validate (pureCtx fwd crit st zde) m loader =
        Except.ok ((valLosses fwd crit m loader).sum / (loader.length : ℚ),
          100 * (valCorrect fwd m loader : ℚ) / (exampleCount loader : ℚ))) ∧
    (∀ (M B E : Type) (lossOf : M → B → ℚ) (st : M → B → M) (zde : E)
        (m : M) (loader : List B) (epochs : Nat),
      loader ≠ [] →
      fine_tune (fun m2 b => (Except.ok (lossOf m2 b) : Except E ℚ)) st zde m loader epochs =
        Except.ok (ftFinalModel st loader m epochs,
          (ftEpochLosses lossOf st loader m epochs).map
            (fun ls => ls.sum / (loader.length : ℚ)))) := by
  refine ⟨?_, ?_, ?_⟩
  · intro M Ex E fwd crit st zde m loader h1 h2
    have hl0 : loader.length ≠ 0 := fun h => h1 (List.length_eq_zero.mp h)
    have hlq : (loader.length : ℚ) ≠ 0 := Nat.cast_ne_zero.mpr hl0
    have htq : (exampleCount loader : ℚ) ≠ 0 :=
      Nat.cast_ne_zero.mpr (Nat.pos_iff_ne_zero.mp h2)
    simp only [train_epoch]
    rw [trainLoop_pure]
    simp [pydiv, hlq, htq]
  · intro M Ex E fwd crit st zde m loader h1 h2
    have hl0 : loader.length ≠ 0 := fun h => h1 (List.length_eq_zero.mp h)
    have hlq : (loader.length : ℚ) ≠ 0 := Nat.cast_ne_zero.mpr hl0
    have htq : (exampleCount loader : ℚ) ≠ 0 :=
      Nat.cast_ne_zero.mpr (Nat.pos_iff_ne_zero.mp h2)
    simp only [validate]
    rw [valLoop_pure]
    simp [pydiv, hlq, htq]
  · intro M B E lossOf st zde m loader epochs h1
    simp only [fine_tune]
    rw [ftEpochLoop_pure lossOf st zde loader h1]

/-- Witness for C6 at a one-batch loader of two examples (one of which
the concrete model classifies correctly) and a two-epoch fine-tune run
over two batches. -/
theorem spec_C6_witness :
    (train_epoch (pureCtx (fun (_ : Nat) (_ : List Nat) => [[0, 1], [1, 0]])
        (fun _ _ => 3) (fun m _ _ => m + 1) (99 : Nat)) 0 [([10, 20], [1, 1])] =
      Except.ok (((batchLosses (fun (_ : Nat) (_ : List Nat) => [[0, 1], [1, 0]])
            (fun _ _ => 3) (fun m _ _ => m + 1) 0 [([10, 20], [1, 1])]).sum /
            (([([10, 20], [1, 1])] : Loader Nat).length : ℚ),
          100 * (correctCount (fun (_ : Nat) (_ : List Nat) => [[0, 1], [1, 0]])
            (fun m _ _ => m + 1) 0 [([10, 20], [1, 1])] : ℚ) /
            (exampleCount ([([10, 20], [1, 1])] : Loader Nat) : ℚ)),
        finalModel (fun m _ _ => m + 1) 0 [([10, 20], [1, 1])])) ∧
    (fine_tune (fun (_ : Nat) (b : Nat) => (Except.ok ((b : ℚ)) : Except Nat ℚ))
        (fun m b => m + b) 99 0 [2, 3] 2 =
      Except.ok (ftFinalModel (fun (m : Nat) (b : Nat) => m + b) [2, 3] 0 2,
        (ftEpochLosses (fun (_ : Nat) (b : Nat) => (b : ℚ)) (fun m b => m + b) [2, 3] 0 2).map
          (fun ls => ls.sum / (([2, 3] : List Nat).length : ℚ)))) := by
  constructor
  · exact spec_C6_metrics.1 Nat Nat Nat (fun _ _ => [[0, 1], [1, 0]]) (fun _ _ => 3)
      (fun m _ _ => m + 1) 99 0 [([10, 20], [1, 1])] (by decide) (by decide)
  · exact spec_C6_metrics.2.2 Nat Nat Nat (fun _ b => (b : ℚ)) (fun m b => m + b)
      99 0 [2, 3] 2 (by decide)

/-- C9: on a dataloader yielding zero batches, `train_epoch`, `validate`
and `fine_tune` all divide by `len(dataloader) = 0` and fail with the
ZeroDivisionError; with at least one batch that division succeeds. -/
theorem spec_C9_div_by_zero :
    (∀ (M Ex E : Type) (ctx : EpochCtx M Ex E) (m : M),
      train_epoch ctx m [] = Except.error ctx.zde) ∧
    (∀ (M Ex E : Type) (ctx : EpochCtx M Ex E) (m : M),
      validate ctx m [] = Except.error ctx.zde) ∧
    (∀ (M B E : Type) (lossOf : M → B → Except E ℚ) (st : M → B → M) (zde : E)
        (m : M) (epochs : Nat), 0 < epochs →
      fine_tune lossOf st zde m [] epochs = Except.error zde) ∧
    (∀ (E α : Type) (zde : E) (a : ℚ) (loader : List α), loader ≠ [] →
      pydiv zde a (loader.length : ℚ) = Except.ok (a / (loader.length : ℚ))) := by
  refine ⟨?_, ?_, ?_, ?_⟩
  · intro M Ex E ctx m
    simp [train_epoch, trainLoop, pydiv]
  · intro M Ex E ctx m
    simp [validate, valLoop, pydiv]
  · intro M B E lossOf st zde m epochs hpos
    obtain ⟨k, rfl⟩ : ∃ k, epochs = k + 1 := ⟨epochs - 1, by omega⟩
    simp [fine_tune, ftEpochLoop, ftBatchLoop, pydiv]
  · intro E α zde a loader hne
    have hl0 : loader.length ≠ 0 := fun h => hne (List.length_eq_zero.mp h)
    have hlq : (loader.length : ℚ) ≠ 0 := Nat.cast_ne_zero.mpr hl0
    simp [pydiv, hlq]

/-- Witness for C9: a three-epoch fine-tune run over an empty loader
raises the ZeroDivisionError, and the guarded division succeeds on a
two-batch loader. -/
theorem spec_C9_witness :
    fine_tune (fun (_ : Nat) (_ : Nat) => (Except.ok 0 : Except Nat ℚ))
        (fun m _ => m) 37 0 [] 3 = Except.error 37 ∧
    pydiv (37 : Nat) 5 ((([4, 5] : List Nat)).length : ℚ) =
      Except.ok (5 / ((([4, 5] : List Nat)).length : ℚ)) := by
  constructor
  · exact spec_C9_div_by_zero.2.2.1 Nat Nat Nat (fun _ _ => Except.ok 0)
      (fun m _ => m) 37 0 3 (by decide)
  · exact spec_C9_div_by_zero.2.2.2 Nat Nat 37 5 [4, 5] (by decide)

/-! ## Error propagation (claim C5) -/

/-- Splitting the training loop at a list append. -/
theorem trainLoop_append {M Ex E : Type} (ctx : EpochCtx M Ex E) :
    ∀ (xs ys : Loader Ex) (m : M) (tl : ℚ) (c t : Nat),
      trainLoop ctx m tl c t (xs ++ ys) =
        match trainLoop ctx m tl c t xs with
        | Except.error e => Except.error e
        | Except.ok (m2, tl2, c2, t2) => trainLoop ctx m2 tl2 c2 t2 ys := by
  intro xs
  induction xs with
  | nil =>
    intro ys m tl c t
    simp [trainLoop]
  | cons b rest ih =>
    obtain ⟨inputs, targets⟩ := b
    intro ys m tl c t
    simp only [List.cons_append, trainLoop]
    cases hf : ctx.modelFwd m inputs with
    | error e => simp
    | ok outputs => simp [ih]

/-- Splitting the validation loop at a list append. -/
theorem valLoop_append {M Ex E : Type} (ctx : EpochCtx M Ex E) (m : M) :
    ∀ (xs ys : Loader Ex) (tl : ℚ) (c t : Nat),
      valLoop ctx m tl c t (xs ++ ys) =
        match valLoop ctx m tl c t xs with
        | Except.error e => Except.error e
        | Except.ok (tl2, c2, t2) => valLoop ctx m tl2 c2 t2 ys := by
  intro xs
  induction xs with
  | nil =>
    intro ys tl c t
    simp [valLoop]
  | cons b rest ih =>
    obtain ⟨inputs, targets⟩ := b
    intro ys tl c t
    simp only [List.cons_append, valLoop]
    cases hf : ctx.modelFwd m inputs with
    | error e => simp
    | ok outputs => simp [ih]

/-- Splitting the `fine_tune` batch loop at a list append. -/
theorem ftBatchLoop_append {M B E : Type} (lossOf : M → B → Except E ℚ)
    (st : M → B → M) :
    ∀ (xs ys : List B) (m : M) (tl : ℚ),
      ftBatchLoop lossOf st m tl (xs ++ ys) =
        match ftBatchLoop lossOf st m tl xs with
        | Except.error e => Except.error e
        | Except.ok (m2, tl2) => ftBatchLoop lossOf st m2 tl2 ys := by
  intro xs
  induction xs with
  | nil =>
    intro ys m tl
    simp [ftBatchLoop]
  | cons b rest ih =>
    intro ys m tl
    simp only [List.cons_append, ftBatchLoop]
    cases hf : lossOf m b with
    | error e => simp
    | ok loss => simp [ih]

/-- C5: no authored function installs an exception handler: when a
framework call raises inside `train_epoch`, `validate`, `fine_tune` or
`apply_qaf`, the same error value reaches the caller unchanged — here
stated for the first failing forward or loss call after any successful
prefix of batches, and for a `train_epoch` failure inside the first
`apply_qaf` epoch. -/
theorem spec_C5_error_propagation :
    (∀ (M Ex E : Type) (ctx : EpochCtx M Ex E) (m m1 : M) (pre rest : Loader Ex)
        (inputs : List Ex) (targets : List Nat) (tl : ℚ) (c t : Nat) (e : E),
      trainLoop ctx m 0 0 0 pre = Except.ok (m1, tl, c, t) →
      ctx.modelFwd m1 inputs = Except.error e →
      train_epoch ctx m (pre ++ (inputs, targets) :: rest) = Except.error e) ∧
    (∀ (M Ex E : Type) (ctx : EpochCtx M Ex E) (m : M) (pre rest : Loader Ex)
        (inputs : List Ex) (targets : List Nat) (tl : ℚ) (c t : Nat) (e : E),
      valLoop ctx m 0 0 0 pre = Except.ok (tl, c, t) →
      ctx.modelFwd m inputs = Except.error e →
      validate ctx m (pre ++ (inputs, targets) :: rest) = Except.error e) ∧
    (∀ (M B E : Type) (lossOf : M → B → Except E ℚ) (st : M → B → M) (zde : E)
        (m m1 : M) (pre rest : List B) (b : B) (tl : ℚ) (e : E) (epochs : Nat),
      0 < epochs →
      ftBatchLoop lossOf st m 0 pre = Except.ok (m1, tl) →
      lossOf m1 b = Except.error e →
      fine_tune lossOf st zde m (pre ++ b :: rest) epochs = Except.error e) ∧
    (∀ (M Ex E : Type) (ctx : EpochCtx M Ex E)
        (prepQat retainFL dObs eFq eObs cvt : M → M)
        (m : M) (tl vl : Loader Ex) (epochs : Nat) (e : E),
      0 < epochs →
      train_epoch ctx (eFq (dObs (retainFL (prepQat m)))) tl = Except.error e →
      apply_qaf ctx prepQat retainFL dObs eFq eObs cvt m tl vl epochs = Except.error e) := by
  refine ⟨?_, ?_, ?_, ?_⟩
  · intro M Ex E ctx m m1 pre rest inputs targets tl c t e hpre hfwd
    simp only [train_epoch]
    rw [trainLoop_append, hpre]
    simp only [trainLoop]
    rw [hfwd]
  · intro M Ex E ctx m pre rest inputs targets tl c t e hpre hfwd
    simp only [validate]
    rw [valLoop_append, hpre]
    simp only [valLoop]
    rw [hfwd]
  · intro M B E lossOf st zde m m1 pre rest b tl e epochs hpos hpre hloss
    obtain ⟨k, rfl⟩ : ∃ k, epochs = k + 1 := ⟨epochs - 1, by omega⟩
    simp only [fine_tune, ftEpochLoop]
    rw [ftBatchLoop_append, hpre]
    simp only [ftBatchLoop]
    rw [hloss]
  · intro M Ex E ctx prepQat retainFL dObs eFq eObs cvt m tl vl epochs e hpos htr
    obtain ⟨k, rfl⟩ : ∃ k, epochs = k + 1 := ⟨epochs - 1, by omega⟩
    simp only [apply_qaf, qafEpochLoop]
    rw [if_neg (lt_irrefl 0)]
    rw [htr]

/-- Witness for C5: a context whose forward call fails with the error
value 5 makes `train_epoch`, `validate` and `apply_qaf` return exactly
that error, and a failing loss call makes `fine_tune` return its error
value 7. -/
theorem spec_C5_witness :
    train_epoch
        { modelFwd := fun (_ : Nat) (_ : List Nat) => (Except.error 5 : Except Nat (List (List ℚ))),
          criterion := fun _ _ => 0, optStep := fun m _ _ => m, zde := 9 }
        0 ([] ++ ([3], [1]) :: []) = Except.error 5 ∧
    validate
        { modelFwd := fun (_ : Nat) (_ : List Nat) => (Except.error 5 : Except Nat (List (List ℚ))),
          criterion := fun _ _ => 0, optStep := fun m _ _ => m, zde := 9 }
        0 ([] ++ ([3], [1]) :: []) = Except.error 5 ∧
    fine_tune (fun (_ : Nat) (_ : Nat) => (Except.error 7 : Except Nat ℚ))
        (fun m _ => m) 9 0 ([] ++ 4 :: []) 1 = Except.error 7 ∧
    apply_qaf
        { modelFwd := fun (_ : Nat) (_ : List Nat) => (Except.error 5 : Except Nat (List (List ℚ))),
          criterion := fun _ _ => 0, optStep := fun m _ _ => m, zde := 9 }
        (fun m => m) (fun m => m) (fun m => m) (fun m => m) (fun m => m) (fun m => m)
        0 [([2], [0])] [] 2 = Except.error 5 := by
  refine ⟨?_, ?_, ?_, ?_⟩
  · exact spec_C5_error_propagation.1 Nat Nat Nat
      { modelFwd := fun _ _ => Except.error 5, criterion := fun _ _ => 0,
        optStep := fun m _ _ => m, zde := 9 }
      0 0 [] [] [3] [1] 0 0 0 5 rfl rfl
  · exact spec_C5_error_propagation.2.1 Nat Nat Nat
      { modelFwd := fun _ _ => Except.error 5, criterion := fun _ _ => 0,
        optStep := fun m _ _ => m, zde := 9 }
      0 [] [] [3] [1] 0 0 0 5 rfl rfl
  · exact spec_C5_error_propagation.2.2.1 Nat Nat Nat
      (fun _ _ => Except.error 7) (fun m _ => m) 9 0 0 [] [] 4 0 7 1
      (by decide) rfl rfl
  · exact spec_C5_error_propagation.2.2.2 Nat Nat Nat
      { modelFwd := fun _ _ => Except.error 5, criterion := fun _ _ => 0,
        optStep := fun m _ _ => m, zde := 9 }
      (fun m => m) (fun m => m) (fun m => m) (fun m => m) (fun m => m) (fun m => m)
      0 [([2], [0])] [] 2 5 (by decide) rfl

end QuantRecipes
